import Mathlib

/-!
Verification of the Azure configuration checker
(`scripts/azure-config-check.py`) against its specification.

The script is a single-threaded, pure text-processing pass: every checker
consumes the raw document text and appends finding strings to two
accumulator lists (`errors`, `warnings`) held on a checker object.  We embed
it shallowly:

* Python regexes are embedded as an executable regular-expression datatype
  `RE` with Brzozowski-derivative matching.  `re.search(p, s, flags)` is an
  existence test, so the embedding only needs the boolean language membership
  of `anychar* ++ p ++ anychar*`.  `re.IGNORECASE` is reflected by building
  the literal character classes case-insensitively; `re.DOTALL` by letting
  the dot class accept the newline character.  Character classes are the
  ASCII readings of the Python classes (the checked templates and catalog
  patterns are ASCII).
* The two group-extracting regex uses (`re.findall` over the resource
  declaration pattern and `re.search` over the name pattern) are embedded as
  deterministic left-to-right scanners; both source patterns are
  backtracking-free because each greedy piece is over a character class
  disjoint from its follower, so the scanners compute exactly the Python
  leftmost-match semantics.
* File reads are modelled as a function `String → Except String String`
  (path to content, or the exception text of a failed read).
-/

set_option maxRecDepth 4000

namespace AzureCheck

/-- Syntax of the regular expressions used by the checker: the empty
language, the empty word, a single-character class, concatenation,
alternation and Kleene star. -/
inductive RE where
  | void : RE
  | eps : RE
  | cls : (Char → Bool) → RE
  | cat : RE → RE → RE
  | alt : RE → RE → RE
  | star : RE → RE

/-- Whether the regular expression accepts the empty word. -/
def RE.nullable : RE → Bool
  | .void => false
  | .eps => true
  | .cls _ => false
  | .cat a b => a.nullable && b.nullable
  | .alt a b => a.nullable || b.nullable
  | .star _ => true

/-- Concatenation, simplifying the unit and absorbing elements. -/
def mkCat : RE → RE → RE
  | .void, _ => .void
  | _, .void => .void
  | .eps, b => b
  | a, .eps => a
  | a, b => .cat a b

/-- Alternation, simplifying the absorbing element. -/
def mkAlt : RE → RE → RE
  | .void, b => b
  | a, .void => a
  | a, b => .alt a b

/-- Brzozowski derivative of a regular expression by one character. -/
def RE.deriv : RE → Char → RE
  | .void, _ => .void
  | .eps, _ => .void
  | .cls p, c => if p c then .eps else .void
  | .cat a b, c =>
    if a.nullable then mkAlt (mkCat (a.deriv c) b) (b.deriv c)
    else mkCat (a.deriv c) b
  | .alt a b, c => mkAlt (a.deriv c) (b.deriv c)
  | .star a, c => mkCat (a.deriv c) (.star a)

/-- Derivative-based language membership test for a list of characters. -/
def RE.matchL : RE → List Char → Bool
  | r, [] => r.nullable
  | r, c :: cs => (r.deriv c).matchL cs

/-- Character class accepting every character (the DOTALL dot, and the
padding on both sides of an unanchored search). -/
def anyChar : RE := RE.cls fun _ => true

/-- Embedding of Python `re.search(r, content, ...)`: the pattern may match
anywhere inside the document. -/
def reSearch (r : RE) (content : String) : Bool :=
  RE.matchL (RE.cat (RE.star anyChar) (RE.cat r (RE.star anyChar))) content.data

/-- Case-sensitive literal string as a regular expression. -/
def lit (s : String) : RE :=
  s.data.foldr (fun ch r => RE.cat (RE.cls fun x => x == ch) r) RE.eps

/-- Case-insensitive literal string: each character class compares the
lowercased characters, reflecting re.IGNORECASE. -/
def litCI (s : String) : RE :=
  s.data.foldr (fun ch r => RE.cat (RE.cls fun x => x.toLower == ch.toLower) r) RE.eps

/-- Concatenation of a list of regular expressions. -/
def seqRE (l : List RE) : RE := l.foldr RE.cat RE.eps

/-- Dot-star under re.DOTALL: any characters, newlines included. -/
def dotA : RE := RE.star anyChar

/-- Dot-star without re.DOTALL: any characters except newline. -/
def dotN : RE := RE.star (RE.cls fun c => !(c == '\n'))

/-- Exactly n repetitions of a regular expression. -/
def repN (r : RE) : Nat → RE
  | 0 => RE.eps
  | n + 1 => RE.cat r (repN r n)

/-- At most n repetitions of a regular expression. -/
def repUpTo (r : RE) : Nat → RE
  | 0 => RE.eps
  | n + 1 => RE.cat (RE.alt RE.eps r) (repUpTo r n)

/-- One or more repetitions of a regular expression. -/
def plusRE (r : RE) : RE := RE.cat r (RE.star r)

/-- Security rule pattern key_vault_access_policies (IGNORECASE, DOTALL):
accessPolicies.*permissions.*secrets.*\[.*get.*list.*\]  -/
def kvAccessRE : RE :=
  seqRE [litCI "accessPolicies", dotA, litCI "permissions", dotA, litCI "secrets",
    dotA, litCI "[", dotA, litCI "get", dotA, litCI "list", dotA, litCI "]"]

/-- Security rule pattern storage_account_secure_transfer (IGNORECASE, DOTALL):
supportsHttpsTrafficOnly.*true  -/
def httpsTrafficRE : RE := seqRE [litCI "supportsHttpsTrafficOnly", dotA, litCI "true"]

/-- Security rule pattern app_service_https_only (IGNORECASE, DOTALL):
httpsOnly.*true  -/
def httpsOnlyRE : RE := seqRE [litCI "httpsOnly", dotA, litCI "true"]

/-- Security rule pattern managed_identity (IGNORECASE, DOTALL):
identity.*type.*SystemAssigned|UserAssigned
(the alternation has the lowest precedence, splitting the whole pattern). -/
def managedIdentityRE : RE :=
  RE.alt (seqRE [litCI "identity", dotA, litCI "type", dotA, litCI "SystemAssigned"])
    (litCI "UserAssigned")

/-- Security rule pattern network_security_groups (IGNORECASE, DOTALL):
securityRules.*access.*Allow.*\*.*\*  -/
def nsgRE : RE :=
  seqRE [litCI "securityRules", dotA, litCI "access", dotA, litCI "Allow",
    dotA, litCI "*", dotA, litCI "*"]

/-- Security rule pattern sql_server_firewall (IGNORECASE, DOTALL):
firewallRules.*startIpAddress.*0\.0\.0\.0.*endIpAddress.*255\.255\.255\.255  -/
def sqlFirewallRE : RE :=
  seqRE [litCI "firewallRules", dotA, litCI "startIpAddress", dotA, litCI "0.0.0.0",
    dotA, litCI "endIpAddress", dotA, litCI "255.255.255.255"]

/-- One entry of the security-rule catalog: `pattern`, `message` and
`severity` are always present in the source dict; `required` and `invert`
default to False there (`rule_config.get(..., False)`), so they are explicit
booleans here. -/
structure SecurityRule where
  pattern : RE
  message : String
  severity : String
  required : Bool
  invert : Bool

/-- The security-rule catalog `self.security_rules`, in dict insertion
order. -/
def securityRules : List (String × SecurityRule) :=
  [("key_vault_access_policies",
    { pattern := kvAccessRE,
      message := "Key Vault should use least privilege access policies",
      severity := "warning", required := false, invert := false }),
   ("storage_account_secure_transfer",
    { pattern := httpsTrafficRE,
      message := "Storage accounts should require secure transfer (HTTPS)",
      severity := "error", required := true, invert := false }),
   ("app_service_https_only",
    { pattern := httpsOnlyRE,
      message := "App Services should enforce HTTPS only",
      severity := "error", required := true, invert := false }),
   ("managed_identity",
    { pattern := managedIdentityRE,
      message := "Resources should use managed identity instead of service principals",
      severity := "warning", required := false, invert := false }),
   ("network_security_groups",
    { pattern := nsgRE,
      message := "NSG rules should not allow unrestricted access (*:*)",
      severity := "error", required := false, invert := true }),
   ("sql_server_firewall",
    { pattern := sqlFirewallRE,
      message := "SQL Server should not allow unrestricted firewall access (0.0.0.0-255.255.255.255)",
      severity := "error", required := false, invert := true })]

/-- ASCII lowercase letter test, kernel-friendly. -/
def isLowerAZ (c : Char) : Bool := 97 ≤ c.toNat && c.toNat ≤ 122

/-- ASCII digit test. -/
def isDigitC (c : Char) : Bool := 48 ≤ c.toNat && c.toNat ≤ 57

/-- Character class [a-z0-9-] of the naming patterns. -/
def lowerDigitDash : RE := RE.cls fun c => isLowerAZ c || isDigitC c || c == '-'

/-- Character class [a-z0-9] of the storage-account naming pattern. -/
def lowerDigit : RE := RE.cls fun c => isLowerAZ c || isDigitC c

/-- Compiled naming pattern for a prefixed category such as
^rg-[a-z0-9-]+$ (anchors handled by `reMatchAnchored`). -/
def prefixedNameRE (p : String) : RE := RE.cat (lit p) (plusRE lowerDigitDash)

/-- Compiled storage-account naming pattern ^st[a-z0-9]\x7b3,22\x7d$:
the literal st followed by 3 to 22 characters of [a-z0-9]. -/
def storageNameRE : RE := RE.cat (lit "st") (RE.cat (repN lowerDigit 3) (repUpTo lowerDigit 19))

/-- The naming-convention catalog `self.naming_rules`: category name to the
source text of its validation pattern (the text is interpolated verbatim
into the warning message). -/
def namingRules : List (String × String) :=
  [("resource_group", "^rg-[a-z0-9-]+$"),
   ("storage_account", "^st[a-z0-9]\x7b3,22\x7d$"),
   ("key_vault", "^kv-[a-z0-9-]+$"),
   ("app_service", "^app-[a-z0-9-]+$"),
   ("app_service_plan", "^asp-[a-z0-9-]+$"),
   ("sql_server", "^sql-[a-z0-9-]+$"),
   ("cosmos_db", "^cosmos-[a-z0-9-]+$")]

/-- Compiled form of the naming pattern of each catalog category. -/
def namingRE (category : String) : RE :=
  if category == "resource_group" then prefixedNameRE "rg-"
  else if category == "storage_account" then storageNameRE
  else if category == "key_vault" then prefixedNameRE "kv-"
  else if category == "app_service" then prefixedNameRE "app-"
  else if category == "app_service_plan" then prefixedNameRE "asp-"
  else if category == "sql_server" then prefixedNameRE "sql-"
  else if category == "cosmos_db" then prefixedNameRE "cosmos-"
  else RE.void

/-- Embedding of Python re.match against a pattern of the shape ^r$:
the whole string must be in the language of r, except that the dollar
anchor also accepts a single trailing newline. -/
def reMatchAnchored (r : RE) (s : String) : Bool :=
  RE.matchL r s.data || RE.matchL (RE.cat r (lit "\n")) s.data

/-- The resource-type-to-naming-category table built inside
`_check_naming_conventions`. -/
def typeMapping : List (String × String) :=
  [("Microsoft.Resources/resourceGroups", "resource_group"),
   ("Microsoft.Storage/storageAccounts", "storage_account"),
   ("Microsoft.KeyVault/vaults", "key_vault"),
   ("Microsoft.Web/sites", "app_service"),
   ("Microsoft.Web/serverfarms", "app_service_plan"),
   ("Microsoft.Sql/servers", "sql_server"),
   ("Microsoft.DocumentDB/databaseAccounts", "cosmos_db")]

/-- First-match lookup in an association list, the embedding of a Python
dict .get on the fixed catalogs. -/
def lookupStr {α : Type} : List (String × α) → String → Option α
  | [], _ => none
  | p :: rest, k => if p.1 == k then some p.2 else lookupStr rest k

/-- Python \s (ASCII reading): space, tab, newline, carriage return,
vertical tab, form feed. -/
def isSpaceChar (c : Char) : Bool :=
  c == ' ' || c == '\t' || c == '\n' || c == '\r' || c == '\x0b' || c == '\x0c'

/-- Python \w (ASCII reading): letters, digits and underscore. -/
def isWordChar (c : Char) : Bool := c.isAlpha || c.isDigit || c == '_'

/-- Match a literal list of characters at the head of the input, returning
the remainder. -/
def expectStr : List Char → List Char → Option (List Char)
  | [], l => some l
  | _ :: _, [] => none
  | p :: ps, x :: xs => if x == p then expectStr ps xs else none

/-- The single-quote character, written by code point. -/
def sq : Char := Char.ofNat 39

/-- Attempt to match the resource-declaration pattern
resource\s+(\w+)\s+'([^']+)'\s+=\s+\x7b  at the start of the input,
returning the two captures and the remainder after the match.  Every
greedy piece of the source pattern is over a class disjoint from the
following literal, so this deterministic scan is exact. -/
def matchResourceAt (l : List Char) : Option (String × String × List Char) := do
  let l ← expectStr "resource".data l
  if (l.takeWhile isSpaceChar).isEmpty then none else
  let l := l.dropWhile isSpaceChar
  let w := l.takeWhile isWordChar
  if w.isEmpty then none else
  let l := l.dropWhile isWordChar
  if (l.takeWhile isSpaceChar).isEmpty then none else
  let l := l.dropWhile isSpaceChar
  match l with
  | [] => none
  | q1 :: l =>
    if q1 == sq then
      let t := l.takeWhile (fun c => !(c == sq))
      if t.isEmpty then none else
      match l.dropWhile (fun c => !(c == sq)) with
      | [] => none
      | _ :: l =>
        if (l.takeWhile isSpaceChar).isEmpty then none else
        let l := l.dropWhile isSpaceChar
        match l with
        | '=' :: l =>
          if (l.takeWhile isSpaceChar).isEmpty then none else
          match l.dropWhile isSpaceChar with
          | [] => none
          | b :: l => if b == Char.ofNat 123 then some (String.mk w, String.mk t, l) else none
        | _ => none
    else none

/-- Fuelled scan for `re.findall` over the resource-declaration pattern:
try a match at every position from the left; on success, continue after the
match (Python findall yields non-overlapping leftmost matches). -/
def scanResourcesAux : Nat → List Char → List (String × String)
  | 0, _ => []
  | _, [] => []
  | fuel + 1, c :: cs =>
    match matchResourceAt (c :: cs) with
    | some (w, t, rest) => (w, t) :: scanResourcesAux fuel rest
    | none => scanResourcesAux fuel cs

/-- Embedding of `re.findall(resource_pattern, content)`: the list of
(logical name, resource type) captures. -/
def scanResources (l : List Char) : List (String × String) :=
  scanResourcesAux l.length l

/-- Attempt to match the name pattern  name:\s*'([^']+)'  at the start of
the input, returning the capture. -/
def matchNameAt (l : List Char) : Option String := do
  let l ← expectStr "name:".data l
  let l := l.dropWhile isSpaceChar
  match l with
  | [] => none
  | q1 :: l =>
    if q1 == sq then
      let v := l.takeWhile (fun c => !(c == sq))
      if v.isEmpty then none else
      match l.dropWhile (fun c => !(c == sq)) with
      | [] => none
      | _ :: _ => some (String.mk v)
    else none

/-- Embedding of `re.search(name_pattern, content)`: the capture of the
leftmost match of  name:\s*'([^']+)'  anywhere in the document. -/
def scanName : List Char → Option String
  | [] => none
  | c :: cs =>
    match matchNameAt (c :: cs) with
    | some v => some v
    | none => scanName cs

/-- The mutable accumulator state of an `AzureConfigChecker` instance:
`self.errors` and `self.warnings`, both lists of finding strings, both
initialised empty in `__init__`. -/
structure CheckerState where
  errors : List String
  warnings : List String
deriving DecidableEq

/-- The state of a freshly constructed `AzureConfigChecker`. -/
def emptyState : CheckerState := { errors := [], warnings := [] }

/-- The finding string format used by every checker:
f-string file_path, a colon and the message. -/
def findingMsg (filePath message : String) : String := filePath ++ ": " ++ message

/-- Append a finding at the given severity, as in `_check_security_rules`:
severity error goes to `self.errors`, anything else to `self.warnings`. -/
def addFinding (st : CheckerState) (severity message : String) : CheckerState :=
  if severity == "error" then { st with errors := st.errors ++ [message] }
  else { st with warnings := st.warnings ++ [message] }

/-- The body of the rule loop of `_check_security_rules` for one catalog
rule: an inverted rule records a finding when its pattern matches; a
non-inverted rule records a finding when the pattern does not match and the
rule is required. -/
def checkSecurityRule (st : CheckerState) (content filePath : String) (rule : SecurityRule) : CheckerState :=
  if rule.invert then
    if reSearch rule.pattern content then
      addFinding st rule.severity (findingMsg filePath rule.message)
    else st
  else
    if !(reSearch rule.pattern content) && rule.required then
      addFinding st rule.severity (findingMsg filePath rule.message)
    else st

/-- Step function of the fold over the security-rule catalog. -/
def securityStep (content filePath : String) (st : CheckerState) (nr : String × SecurityRule) : CheckerState :=
  checkSecurityRule st content filePath nr.2

/-- `AzureConfigChecker._check_security_rules`: evaluate every catalog rule
against the document, in catalog order. -/
def checkSecurityRules (st : CheckerState) (content filePath : String) : CheckerState :=
  securityRules.foldl (securityStep content filePath) st

/-- The warning text of `_check_naming_conventions` for one declaration. -/
def namingMsg (filePath resourceName resourceType pat : String) : String :=
  filePath ++ ": Resource \x27" ++ resourceName ++ "\x27 of type \x27" ++ resourceType ++
    "\x27 should follow naming convention: " ++ pat

/-- The per-declaration decision of `_check_naming_conventions`: map the
resource type through `type_mapping`, look the category up in
`naming_rules`, search the WHOLE document for the first name: property
(`re.search(name_pattern, content)` — not scoped to the declaration), and
produce the warning text when that name fails the category's pattern. -/
def namingWarn (content filePath : String) (rt : String × String) : Option String :=
  match lookupStr typeMapping rt.2 with
  | none => none
  | some namingType =>
    match lookupStr namingRules namingType with
    | none => none
    | some pat =>
      match scanName content.data with
      | none => none
      | some actualName =>
        if reMatchAnchored (namingRE namingType) actualName then none
        else some (namingMsg filePath rt.1 rt.2 pat)

/-- Step function of the loop over the extracted resource declarations:
append the warning produced for the declaration, if any. -/
def namingStep (content filePath : String) (st : CheckerState) (rt : String × String) : CheckerState :=
  match namingWarn content filePath rt with
  | none => st
  | some w => { st with warnings := st.warnings ++ [w] }

/-- `AzureConfigChecker._check_naming_conventions`: extract all resource
declarations and check each mapped declaration's (whole-document) declared
name against the category pattern, recording warnings. -/
def checkNamingConventions (st : CheckerState) (content filePath : String) : CheckerState :=
  (scanResources content.data).foldl (namingStep content filePath) st

/-- Character class ['"]. -/
def quoteCls : RE := RE.cls fun c => c == sq || c == '"'

/-- Character class [^'"]. -/
def nonQuote : RE := RE.cls fun c => !(c == sq || c == '"')

/-- Character class [:=]. -/
def colonEq : RE := RE.cls fun c => c == ':' || c == '='

/-- Hardcoded-value pattern for password (IGNORECASE, no DOTALL):
password.*[:=].*['"][^'"]\x7b8,\x7d['"]  — the quoted literal must have at
least 8 characters. -/
def passwordRE : RE :=
  seqRE [litCI "password", dotN, colonEq, dotN, quoteCls, repN nonQuote 8,
    RE.star nonQuote, quoteCls]

/-- Hardcoded-value pattern requiring only a non-empty quoted literal
(IGNORECASE, no DOTALL): kw.*[:=].*['"][^'"]+['"]  -/
def hardcodedKwRE (kw : String) : RE :=
  seqRE [litCI kw, dotN, colonEq, dotN, quoteCls, nonQuote, RE.star nonQuote, quoteCls]

/-- The fixed pattern list of `_check_hardcoded_values`, in source order. -/
def hardcodedPatterns : List (RE × String) :=
  [(passwordRE, "Possible hardcoded password"),
   (hardcodedKwRE "connectionString", "Possible hardcoded connection string"),
   (hardcodedKwRE "apiKey", "Possible hardcoded API key"),
   (hardcodedKwRE "secret", "Possible hardcoded secret"),
   (hardcodedKwRE "token", "Possible hardcoded token")]

/-- Step function of the loop of `_check_hardcoded_values`: one error per
pattern that matches anywhere in the document. -/
def hardcodedStep (content filePath : String) (st : CheckerState) (pm : RE × String) : CheckerState :=
  if reSearch pm.1 content then { st with errors := st.errors ++ [findingMsg filePath pm.2] }
  else st

/-- `AzureConfigChecker._check_hardcoded_values`. -/
def checkHardcodedValues (st : CheckerState) (content filePath : String) : CheckerState :=
  hardcodedPatterns.foldl (hardcodedStep content filePath) st

/-- Exact (case-sensitive) substring test on character lists, the embedding
of the Python `in` operator on strings. -/
def startsWithChars : List Char → List Char → Bool
  | [], _ => true
  | _ :: _, [] => false
  | p :: ps, x :: xs => p == x && startsWithChars ps xs

/-- Exact substring containment: does `needle` occur in `hay`. -/
def containsChars (hay needle : List Char) : Bool :=
  match hay with
  | [] => needle.isEmpty
  | _ :: rest => startsWithChars needle hay || containsChars rest needle

/-- Python `needle in content` on strings: case-sensitive substring test. -/
def containsStr (content needle : String) : Bool := containsChars content.data needle.data

/-- Python `s.endswith(suffix)`: the reversed suffix is a prefix of the
reversed string. -/
def endsWithStr (s suffix : String) : Bool :=
  startsWithChars suffix.data.reverse s.data.reverse

/-- First block of `_check_resource_dependencies`: a Key Vault together
with a web app or container group, and no accessPolicies keyword anywhere,
yields the access-policy warning. -/
def depsKeyVaultCheck (st : CheckerState) (content filePath : String) : CheckerState :=
  if containsStr content "Microsoft.KeyVault/vaults" then
    if containsStr content "Microsoft.Web/sites" ||
        containsStr content "Microsoft.ContainerInstance/containerGroups" then
      if !(containsStr content "accessPolicies") then
        { st with warnings := st.warnings ++
            [findingMsg filePath "Resources using Key Vault should have proper access policies defined"] }
      else st
    else st
  else st

/-- Second block of `_check_resource_dependencies`: a web app without the
vnetRouteAllEnabled keyword yields the VNet-integration warning. -/
def depsVnetCheck (st : CheckerState) (content filePath : String) : CheckerState :=
  if containsStr content "Microsoft.Web/sites" then
    if !(containsStr content "vnetRouteAllEnabled") then
      { st with warnings := st.warnings ++
          [findingMsg filePath "App Services should consider VNet integration for enhanced security"] }
    else st
  else st

/-- `AzureConfigChecker._check_resource_dependencies`: the two blocks in
source order. -/
def checkResourceDependencies (st : CheckerState) (content filePath : String) : CheckerState :=
  depsVnetCheck (depsKeyVaultCheck st content filePath) content filePath

/-- The checking pass of `check_file` on a successfully read document: the
four checkers in source order. -/
def checkContent (st : CheckerState) (content filePath : String) : CheckerState :=
  checkResourceDependencies
    (checkHardcodedValues
      (checkNamingConventions
        (checkSecurityRules st content filePath) content filePath) content filePath) content filePath

/-- The error finding recorded by the except-branch of `check_file`:
f-string Error reading file_path, colon, the exception text. -/
def readErrorMsg (filePath e : String) : String := "Error reading " ++ filePath ++ ": " ++ e

/-- `AzureConfigChecker.check_file`: on a successful read, run the four
checkers and return whether the instance-wide error list is empty; on a
read failure, record one error finding and return False. -/
def checkFile (st : CheckerState) (filePath : String) (readResult : Except String String) : CheckerState × Bool :=
  match readResult with
  | Except.ok content =>
    let st2 := checkContent st content filePath
    (st2, st2.errors.length == 0)
  | Except.error e =>
    ({ st with errors := st.errors ++ [readErrorMsg filePath e] }, false)

/-- The file loop of `main`: arguments not ending in .bicep are skipped;
each qualifying file is read through `fs` and checked, and `all_passed` is
cleared whenever `check_file` returns False. -/
def runFiles (fs : String → Except String String) (st : CheckerState) (allPassed : Bool) :
    List String → CheckerState × Bool
  | [] => (st, allPassed)
  | fp :: rest =>
    if endsWithStr fp ".bicep" then
      runFiles fs (checkFile st fp (fs fp)).1 (allPassed && (checkFile st fp (fs fp)).2) rest
    else
      runFiles fs st allPassed rest

/-- The verdict of `AzureConfigChecker.print_results`: True exactly when no
error finding was accumulated (warnings are ignored). -/
def printResults (st : CheckerState) : Bool := st.errors.length == 0

/-- `main`, with the file system abstracted: exit 1 with a usage message
when no file arguments were given (len(sys.argv) < 2), otherwise run the
file loop and exit 0 when `print_results` reports success and 1 otherwise
(`all_passed` is computed but never consulted for the exit status). -/
def mainExit (fs : String → Except String String) (args : List String) : Nat :=
  if args.isEmpty then 1
  else if printResults (runFiles fs emptyState true args).1 then 0 else 1

/-- The accumulator bucket a severity is routed to: errors for severity
error, warnings otherwise. -/
def sevList (severity : String) (st : CheckerState) : List String :=
  if severity == "error" then st.errors else st.warnings

/-- The other accumulator bucket, the one a severity is NOT routed to. -/
def altList (severity : String) (st : CheckerState) : List String :=
  if severity == "error" then st.warnings else st.errors

/-- Number of occurrences of a given finding string in a finding list. -/
def countEq (l : List String) (s : String) : Nat := (l.filter (fun m => m == s)).length

/-- ASCII-lowercased copy of a string (to express that a keyword occurs
case-insensitively but not exactly). -/
def lowerStr (s : String) : String := String.mk (s.data.map Char.toLower)

/-- A state transformer is an appender when it only appends to the two
finding lists, and what it appends does not depend on the incoming state
(so it equals what a run from the fresh state produces). -/
def Appender (f : CheckerState → CheckerState) : Prop :=
  ∀ st, f st = ⟨st.errors ++ (f emptyState).errors, st.warnings ++ (f emptyState).warnings⟩

theorem appender_comp {f g : CheckerState → CheckerState} (hf : Appender f) (hg : Appender g) :
    Appender (fun st => g (f st)) := by
  intro st
  dsimp only
  rw [hg (f st), hf st, hg (f emptyState)]
  simp [emptyState, List.append_assoc]

theorem appender_foldl {α : Type} (step : CheckerState → α → CheckerState)
    (h : ∀ x, Appender (fun st => step st x)) (l : List α) :
    Appender (fun st => l.foldl step st) := by
  induction l with
  | nil => intro st; simp [emptyState]
  | cons x xs ih =>
    intro st
    dsimp only
    rw [List.foldl_cons, List.foldl_cons]
    have h1 : List.foldl step (step st x) xs =
        ⟨(step st x).errors ++ (List.foldl step emptyState xs).errors,
         (step st x).warnings ++ (List.foldl step emptyState xs).warnings⟩ := ih (step st x)
    have h2 : step st x =
        ⟨st.errors ++ (step emptyState x).errors,
         st.warnings ++ (step emptyState x).warnings⟩ := h x st
    have h3 : List.foldl step (step emptyState x) xs =
        ⟨(step emptyState x).errors ++ (List.foldl step emptyState xs).errors,
         (step emptyState x).warnings ++ (List.foldl step emptyState xs).warnings⟩ := ih (step emptyState x)
    rw [h1, h3, h2]
    simp [List.append_assoc]

theorem appender_securityStep (c fp : String) (nr : String × SecurityRule) :
    Appender (fun st => securityStep c fp st nr) := by
  intro st
  dsimp only
  unfold securityStep checkSecurityRule addFinding
  split_ifs <;> simp [emptyState]

theorem appender_checkSecurityRules (c fp : String) :
    Appender (fun st => checkSecurityRules st c fp) :=
  appender_foldl (securityStep c fp) (appender_securityStep c fp) securityRules

theorem naming_foldl (c fp : String) (l : List (String × String)) :
    ∀ st : CheckerState, l.foldl (namingStep c fp) st =
      ⟨st.errors, st.warnings ++ l.filterMap (namingWarn c fp)⟩ := by
  induction l with
  | nil => intro st; simp
  | cons x xs ih =>
    intro st
    rw [List.foldl_cons, ih (namingStep c fp st x)]
    cases h : namingWarn c fp x with
    | none => simp [namingStep, h, List.filterMap_cons]
    | some w => simp [namingStep, h, List.filterMap_cons]

theorem appender_checkNamingConventions (c fp : String) :
    Appender (fun st => checkNamingConventions st c fp) := by
  intro st
  dsimp only
  unfold checkNamingConventions
  rw [naming_foldl c fp _ st, naming_foldl c fp _ emptyState]
  simp [emptyState]

theorem hardcoded_foldl (c fp : String) (l : List (RE × String)) :
    ∀ st : CheckerState, l.foldl (hardcodedStep c fp) st =
      ⟨st.errors ++ (l.filter (fun pm => reSearch pm.1 c)).map (fun pm => findingMsg fp pm.2),
       st.warnings⟩ := by
  induction l with
  | nil => intro st; simp
  | cons x xs ih =>
    intro st
    rw [List.foldl_cons, ih (hardcodedStep c fp st x)]
    cases h : reSearch x.1 c with
    | false => simp [hardcodedStep, h, List.filter_cons]
    | true => simp [hardcodedStep, h, List.filter_cons]

theorem appender_checkHardcodedValues (c fp : String) :
    Appender (fun st => checkHardcodedValues st c fp) := by
  intro st
  dsimp only
  unfold checkHardcodedValues
  rw [hardcoded_foldl c fp _ st, hardcoded_foldl c fp _ emptyState]
  simp [emptyState]

theorem appender_depsKeyVaultCheck (c fp : String) :
    Appender (fun st => depsKeyVaultCheck st c fp) := by
  intro st
  dsimp only
  unfold depsKeyVaultCheck
  split_ifs <;> simp [emptyState]

theorem appender_depsVnetCheck (c fp : String) :
    Appender (fun st => depsVnetCheck st c fp) := by
  intro st
  dsimp only
  unfold depsVnetCheck
  split_ifs <;> simp [emptyState]

theorem appender_checkResourceDependencies (c fp : String) :
    Appender (fun st => checkResourceDependencies st c fp) :=
  appender_comp (appender_depsKeyVaultCheck c fp) (appender_depsVnetCheck c fp)

theorem appender_checkContent (c fp : String) :
    Appender (fun st => checkContent st c fp) :=
  appender_comp
    (appender_comp
      (appender_comp (appender_checkSecurityRules c fp) (appender_checkNamingConventions c fp))
      (appender_checkHardcodedValues c fp))
    (appender_checkResourceDependencies c fp)

theorem strData_append (a b : String) : (a ++ b).data = a.data ++ b.data := by
  rcases a with ⟨la⟩
  rcases b with ⟨lb⟩
  rfl

theorem strAppend_right_inj (s : String) {a b : String} (h : s ++ a = s ++ b) : a = b := by
  have hd := congrArg String.data h
  rw [strData_append, strData_append] at hd
  have hd2 := List.append_cancel_left hd
  rcases a with ⟨la⟩
  rcases b with ⟨lb⟩
  exact congrArg String.mk hd2

theorem findingMsg_ne (fp : String) {a b : String} (h : a ≠ b) :
    findingMsg fp a ≠ findingMsg fp b := by
  intro he
  unfold findingMsg at he
  rw [String.append_assoc, String.append_assoc] at he
  exact h (strAppend_right_inj _ (strAppend_right_inj fp he))

theorem countEq_append (l₁ l₂ : List String) (s : String) :
    countEq (l₁ ++ l₂) s = countEq l₁ s + countEq l₂ s := by
  simp [countEq, List.filter_append]

theorem countEq_single_ne {x s : String} (h : x ≠ s) : countEq [x] s = 0 := by
  simp [countEq, List.filter_cons, h]

theorem countEq_single_eq (s : String) : countEq [s] s = 1 := by
  simp [countEq, List.filter_cons]

/-- Claim C1, counterexample: the claim asserts exit status 1 for every
argument list with no qualifying .bicep argument, but `main` validates only
the argument COUNT — a non-empty list whose entries lack the .bicep
extension skips every file, accumulates no findings, and exits 0. -/
theorem claimC1_counterexample :
    mainExit (fun p => Except.error ("No such file or directory: " ++ p)) ["README.md"] = 0 := by
  decide

/-- Claim C1, amended: the exit status is 0 exactly when the argument list
is non-empty and the run accumulated no error findings, and 1 exactly when
the argument list is empty (usage message) or some error finding was
accumulated; warnings and the unused all_passed flag never influence it.
A non-empty argument list with no .bicep entry therefore exits 0. -/
theorem claimC1_amended (fs : String → Except String String) (args : List String) :
    (mainExit fs args = 0 ↔ args ≠ [] ∧ (runFiles fs emptyState true args).1.errors = [])
    ∧ (mainExit fs args = 1 ↔ args = [] ∨ (runFiles fs emptyState true args).1.errors ≠ []) := by
  unfold mainExit printResults
  cases args with
  | nil => simp
  | cons a rest =>
    cases hE : (runFiles fs emptyState true (a :: rest)).1.errors with
    | nil => simp [hE]
    | cons x xs => simp [hE]

/-- Claim C2, counterexample: the claim asserts a warning for a
storage-account declaration named storage1, but storage1 itself matches the
catalog pattern — it starts with st followed by six characters of [a-z0-9]
within the 3..22 bound — so `_check_naming_conventions` records nothing. -/
theorem claimC2_counterexample :
    (checkNamingConventions emptyState
      "resource stg \x27Microsoft.Storage/storageAccounts\x27 = \x7b\n  name: \x27storage1\x27\n\x7d\n"
      "config.bicep").warnings = [] := by
  decide

/-- Claim C2, amended: on a storage-account declaration named st123 the
Naming-Convention Checker produces no warning; named storage1 it ALSO
produces no warning (storage1 happens to match the expected pattern); a
declared name that fails the pattern, such as Storage1, produces a warning
referencing the expected naming pattern. -/
theorem claimC2_amended :
    (checkNamingConventions emptyState
      "resource stg \x27Microsoft.Storage/storageAccounts\x27 = \x7b\n  name: \x27st123\x27\n\x7d\n"
      "config.bicep").warnings = []
    ∧ (checkNamingConventions emptyState
      "resource stg \x27Microsoft.Storage/storageAccounts\x27 = \x7b\n  name: \x27storage1\x27\n\x7d\n"
      "config.bicep").warnings = []
    ∧ (checkNamingConventions emptyState
      "resource stg \x27Microsoft.Storage/storageAccounts\x27 = \x7b\n  name: \x27Storage1\x27\n\x7d\n"
      "config.bicep").warnings
      = ["config.bicep: Resource \x27stg\x27 of type \x27Microsoft.Storage/storageAccounts\x27 should follow naming convention: ^st[a-z0-9]\x7b3,22\x7d$"] := by
  refine ⟨by decide, by decide, by decide⟩

/-- Claim C3: for every document and every rule of the security catalog,
an inverted rule records exactly one finding at the rule's severity when
its pattern matches and nothing otherwise; a non-inverted required rule
records exactly one finding at the rule's severity when the pattern does
not match and nothing otherwise; a non-inverted non-required rule never
records anything. -/
theorem claimC3 (nr : String × SecurityRule) (_hmem : nr ∈ securityRules)
    (c fp : String) (st : CheckerState) :
    (nr.2.invert = true →
      (reSearch nr.2.pattern c = true →
        sevList nr.2.severity (checkSecurityRule st c fp nr.2)
            = sevList nr.2.severity st ++ [findingMsg fp nr.2.message]
        ∧ altList nr.2.severity (checkSecurityRule st c fp nr.2) = altList nr.2.severity st)
      ∧ (reSearch nr.2.pattern c = false → checkSecurityRule st c fp nr.2 = st))
    ∧ (nr.2.invert = false →
      (nr.2.required = true →
        (reSearch nr.2.pattern c = false →
          sevList nr.2.severity (checkSecurityRule st c fp nr.2)
              = sevList nr.2.severity st ++ [findingMsg fp nr.2.message]
          ∧ altList nr.2.severity (checkSecurityRule st c fp nr.2) = altList nr.2.severity st)
        ∧ (reSearch nr.2.pattern c = true → checkSecurityRule st c fp nr.2 = st))
      ∧ (nr.2.required = false → checkSecurityRule st c fp nr.2 = st)) := by
  refine ⟨fun hinv => ⟨fun hm => ?_, fun hm => ?_⟩,
          fun hinv => ⟨fun hreq => ⟨fun hm => ?_, fun hm => ?_⟩, fun hreq => ?_⟩⟩
  · cases hs : nr.2.severity == "error" with
    | true => exact ⟨by simp [checkSecurityRule, addFinding, sevList, hinv, hm, hs],
                    by simp [checkSecurityRule, addFinding, altList, hinv, hm, hs]⟩
    | false => exact ⟨by simp [checkSecurityRule, addFinding, sevList, hinv, hm, hs],
                     by simp [checkSecurityRule, addFinding, altList, hinv, hm, hs]⟩
  · simp [checkSecurityRule, hinv, hm]
  · cases hs : nr.2.severity == "error" with
    | true => exact ⟨by simp [checkSecurityRule, addFinding, sevList, hinv, hreq, hm, hs],
                    by simp [checkSecurityRule, addFinding, altList, hinv, hreq, hm, hs]⟩
    | false => exact ⟨by simp [checkSecurityRule, addFinding, sevList, hinv, hreq, hm, hs],
                     by simp [checkSecurityRule, addFinding, altList, hinv, hreq, hm, hs]⟩
  · simp [checkSecurityRule, hinv, hm]
  · simp [checkSecurityRule, hinv, hreq]

/-- Claim C3, witness: the required, non-inverted secure-transfer rule on
the empty document records exactly one error finding. -/
theorem claimC3_witness :
    sevList "error"
        (checkSecurityRule emptyState "" "a.bicep" (securityRules.get ⟨1, by decide⟩).2)
      = sevList "error" emptyState
        ++ [findingMsg "a.bicep" "Storage accounts should require secure transfer (HTTPS)"] :=
  (((claimC3 (securityRules.get ⟨1, by decide⟩) (List.get_mem _ _ _) "" "a.bicep"
      emptyState).2 rfl).1 rfl).1 (by decide) |>.1

/-- Claim C4: the Hardcoded-Value Checker appends, per document, exactly
one error-severity finding for each catalog pattern that matches anywhere
(so at most one per pattern regardless of recurrence), and the password
pattern demands a quoted literal of at least 8 characters while the token
pattern (like connectionString, apiKey and secret) accepts any non-empty
quoted literal. -/
theorem claimC4 :
    (∀ (st : CheckerState) (c fp : String),
       checkHardcodedValues st c fp =
         ⟨st.errors ++ (hardcodedPatterns.filter (fun pm => reSearch pm.1 c)).map
             (fun pm => findingMsg fp pm.2),
          st.warnings⟩)
    ∧ (checkHardcodedValues emptyState "password = \"abcdefgh\"" "f.bicep").errors
        = ["f.bicep: Possible hardcoded password"]
    ∧ (checkHardcodedValues emptyState "password = \"short\"" "f.bicep").errors = []
    ∧ (checkHardcodedValues emptyState "token: \"x\"" "f.bicep").errors
        = ["f.bicep: Possible hardcoded token"] :=
  ⟨fun st c fp => hardcoded_foldl c fp hardcodedPatterns st, by decide, by decide, by decide⟩

/-- Claim C5: the name validated by the Naming-Convention Checker for
every mapped resource declaration is `scanName content` — the first
name: occurrence of the WHOLE document, not one scoped to the
declaration's block — so every declaration of a document is checked
against the same first-found name, and the checker only ever appends
warning-severity findings (the error list is untouched).  The concrete
conjunct shows the misattribution: the storage account is declared with
the conforming name st123, yet it is flagged because the document's first
name: occurrence is the key vault's kv-main. -/
theorem claimC5 :
    (∀ (st : CheckerState) (c fp : String),
       checkNamingConventions st c fp =
         ⟨st.errors, st.warnings ++ (scanResources c.data).filterMap (namingWarn c fp)⟩)
    ∧ (checkNamingConventions emptyState
        "resource kv \x27Microsoft.KeyVault/vaults\x27 = \x7b\n  name: \x27kv-main\x27\n\x7d\nresource stg \x27Microsoft.Storage/storageAccounts\x27 = \x7b\n  name: \x27st123\x27\n\x7d\n"
        "m.bicep").warnings
      = ["m.bicep: Resource \x27stg\x27 of type \x27Microsoft.Storage/storageAccounts\x27 should follow naming convention: ^st[a-z0-9]\x7b3,22\x7d$"] :=
  ⟨fun st c fp => naming_foldl c fp (scanResources c.data) st, by decide⟩

/-- Claim C6: on a document containing the Key-Vault resource type and a
web-app or container-instance resource type but no accessPolicies keyword,
the Resource-Dependency Checker appends exactly one access-policy warning;
when the accessPolicies keyword occurs anywhere it appends none; and it
never touches the error list. -/
theorem claimC6 (st : CheckerState) (c fp : String)
    (hkv : containsStr c "Microsoft.KeyVault/vaults" = true)
    (hdep : containsStr c "Microsoft.Web/sites" = true ∨
            containsStr c "Microsoft.ContainerInstance/containerGroups" = true) :
    (containsStr c "accessPolicies" = false →
      countEq (checkResourceDependencies st c fp).warnings
          (findingMsg fp "Resources using Key Vault should have proper access policies defined")
        = countEq st.warnings
            (findingMsg fp "Resources using Key Vault should have proper access policies defined") + 1)
    ∧ (containsStr c "accessPolicies" = true →
      countEq (checkResourceDependencies st c fp).warnings
          (findingMsg fp "Resources using Key Vault should have proper access policies defined")
        = countEq st.warnings
            (findingMsg fp "Resources using Key Vault should have proper access policies defined"))
    ∧ (checkResourceDependencies st c fp).errors = st.errors := by
  have hne : findingMsg fp "App Services should consider VNet integration for enhanced security"
      ≠ findingMsg fp "Resources using Key Vault should have proper access policies defined" :=
    findingMsg_ne fp (by decide)
  have hv : ∀ s : CheckerState,
      countEq (depsVnetCheck s c fp).warnings
          (findingMsg fp "Resources using Key Vault should have proper access policies defined")
        = countEq s.warnings
            (findingMsg fp "Resources using Key Vault should have proper access policies defined")
      ∧ (depsVnetCheck s c fp).errors = s.errors := by
    intro s
    unfold depsVnetCheck
    split_ifs <;> simp [countEq_append, countEq_single_ne hne]
  have hkve : ∀ s : CheckerState, (depsKeyVaultCheck s c fp).errors = s.errors := by
    intro s
    unfold depsKeyVaultCheck
    split_ifs <;> rfl
  refine ⟨fun hap => ?_, fun hap => ?_, ?_⟩
  · have h1 : depsKeyVaultCheck st c fp =
        ⟨st.errors, st.warnings ++
          [findingMsg fp "Resources using Key Vault should have proper access policies defined"]⟩ := by
      unfold depsKeyVaultCheck
      cases hdep with
      | inl h => simp [hkv, h, hap]
      | inr h => simp [hkv, h, hap]
    unfold checkResourceDependencies
    rw [h1, (hv _).1]
    simp [countEq_append, countEq_single_eq]
  · have h1 : depsKeyVaultCheck st c fp = st := by
      unfold depsKeyVaultCheck
      simp [hap]
    unfold checkResourceDependencies
    rw [h1]
    exact (hv st).1
  · unfold checkResourceDependencies
    rw [(hv _).2, hkve st]

/-- Claim C6, witness: the access-policy warning appears once on a
document with a key vault and a web app and no accessPolicies keyword, and
never when the keyword is present. -/
theorem claimC6_witness :
    (countEq (checkResourceDependencies emptyState
        "Microsoft.KeyVault/vaults Microsoft.Web/sites" "w.bicep").warnings
        (findingMsg "w.bicep" "Resources using Key Vault should have proper access policies defined")
      = countEq emptyState.warnings
          (findingMsg "w.bicep" "Resources using Key Vault should have proper access policies defined") + 1)
    ∧ (countEq (checkResourceDependencies emptyState
        "Microsoft.KeyVault/vaults Microsoft.Web/sites accessPolicies" "w.bicep").warnings
        (findingMsg "w.bicep" "Resources using Key Vault should have proper access policies defined")
      = countEq emptyState.warnings
          (findingMsg "w.bicep" "Resources using Key Vault should have proper access policies defined")) :=
  ⟨(claimC6 emptyState "Microsoft.KeyVault/vaults Microsoft.Web/sites" "w.bicep"
      (by decide) (Or.inl (by decide))).1 (by decide),
   (claimC6 emptyState "Microsoft.KeyVault/vaults Microsoft.Web/sites accessPolicies" "w.bicep"
      (by decide) (Or.inl (by decide))).2.1 (by decide)⟩

/-- Claim C7: a qualifying file whose read fails contributes exactly one
error finding carrying the file path and the failure reason, `check_file`
reports failure for it, and the run continues over the remaining files
exactly as it would from the enlarged state — a read failure never aborts
the run. -/
theorem claimC7 (fs : String → Except String String) (st : CheckerState) (ap : Bool)
    (fp e : String) (rest : List String)
    (hb : endsWithStr fp ".bicep" = true) (hf : fs fp = Except.error e) :
    runFiles fs st ap (fp :: rest) =
      runFiles fs ⟨st.errors ++ ["Error reading " ++ fp ++ ": " ++ e], st.warnings⟩ false rest := by
  simp [runFiles, hb, hf, checkFile, readErrorMsg]

/-- Claim C7, witness: a failing read of a.bicep records one tagged error
finding and the loop proceeds to b.bicep. -/
theorem claimC7_witness :
    runFiles (fun _ => Except.error "boom") emptyState true ["a.bicep", "b.bicep"] =
      runFiles (fun _ => Except.error "boom")
        ⟨["Error reading " ++ "a.bicep" ++ ": " ++ "boom"], []⟩ false ["b.bicep"] :=
  claimC7 _ _ _ _ _ _ (by decide) rfl

/-- Claim C8: the checking pass is a deterministic, state-independent
appender — for every prior state, document text and path, it extends the
error and warning lists with exactly the findings a run from the fresh
state produces on that (content, path) pair.  Two invocations on an
unchanged file therefore append byte-identical ordered finding lists. -/
theorem claimC8 (st : CheckerState) (c fp : String) :
    checkContent st c fp =
      ⟨st.errors ++ (checkContent emptyState c fp).errors,
       st.warnings ++ (checkContent emptyState c fp).warnings⟩ :=
  appender_checkContent c fp st

/-- Claim C9: `check_file` returns whether the INSTANCE-wide error list is
empty after the file is processed; since checkers only append, any error
recorded for an earlier file forces False for every later file, even one
producing no findings of its own. -/
theorem claimC9 (st : CheckerState) (fp : String) (rr : Except String String)
    (h : st.errors ≠ []) : (checkFile st fp rr).2 = false := by
  cases rr with
  | error e => rfl
  | ok c =>
    show ((checkContent st c fp).errors.length == 0) = false
    have hd : checkContent st c fp =
        ⟨st.errors ++ (checkContent emptyState c fp).errors,
         st.warnings ++ (checkContent emptyState c fp).warnings⟩ :=
      appender_checkContent c fp st
    rw [hd]
    cases hE : st.errors with
    | nil => exact absurd hE h
    | cons a l => simp [hE]

/-- Claim C9, witness: after a prior error, `check_file` returns False on a
file whose content produces no findings at all. -/
theorem claimC9_witness :
    (checkFile ⟨["earlier error"], []⟩ "clean.bicep"
      (Except.ok "supportsHttpsTrafficOnly: true httpsOnly: true")).2 = false :=
  claimC9 _ _ _ (by decide)

/-- Claim C10: the Resource-Dependency Checker tests presence with the
case-sensitive substring operator, unlike the IGNORECASE security-rule
matching: whenever the Key-Vault, web-app and container-instance strings
are absent in their exact case, the checker leaves the state untouched
(even if, as the lowercase conjunct illustrates, the keyword occurs in a
different letter case); a differently-cased accessPolicies or
vnetRouteAllEnabled keyword likewise fails to suppress the corresponding
warning; and the security-rule matcher accepts a lowercased keyword. -/
theorem claimC10 :
    (∀ (st : CheckerState) (c fp : String),
        containsStr c "Microsoft.KeyVault/vaults" = false →
        containsStr c "Microsoft.Web/sites" = false →
        containsStr c "Microsoft.ContainerInstance/containerGroups" = false →
        checkResourceDependencies st c fp = st)
    ∧ containsStr (lowerStr "microsoft.keyvault/vaults microsoft.web/sites")
        (lowerStr "Microsoft.Web/sites") = true
    ∧ reSearch httpsOnlyRE "httpsonly: true" = true
    ∧ (checkResourceDependencies emptyState
         "Microsoft.Web/sites vnetrouteallenabled" "d.bicep").warnings
        = ["d.bicep: App Services should consider VNet integration for enhanced security"]
    ∧ (checkResourceDependencies emptyState
         "Microsoft.KeyVault/vaults Microsoft.Web/sites ACCESSPOLICIES vnetRouteAllEnabled"
         "d.bicep").warnings
        = ["d.bicep: Resources using Key Vault should have proper access policies defined"] := by
  refine ⟨?_, by decide, by decide, by decide, by decide⟩
  intro st c fp h1 h2 h3
  unfold checkResourceDependencies depsKeyVaultCheck depsVnetCheck
  simp [h1, h2, h3]

/-- Claim C10, witness: a document carrying the dependency keywords only in
lowercase gets no dependency findings. -/
theorem claimC10_witness :
    checkResourceDependencies emptyState
      "microsoft.keyvault/vaults microsoft.web/sites" "d.bicep" = emptyState :=
  claimC10.1 emptyState "microsoft.keyvault/vaults microsoft.web/sites" "d.bicep"
    (by decide) (by decide) (by decide)

end AzureCheck
